import Mathlib

/-!
Shallow embedding of the vault-rs client library (a typed HTTP client for a
secrets-management service). JSON values are modelled as an inductive type,
the response envelope and its projections are translated from src/lib.rs,
the error enumeration from src/error.rs, the transit functions from
src/secrets/transit.rs and the mount administration from src/sys/mounts.rs.
The HTTP transport, the URL library and the environment are external
collaborators and appear as explicit parameters.
-/

namespace VaultRs

/-- JSON values, the model of serde_json::Value. Objects are association
lists in the order the fields were produced. -/
inductive Json where
  | null
  | bool (b : Bool)
  | num (n : Int)
  | str (s : String)
  | arr (xs : List Json)
  | obj (fields : List (String × Json))

/-- First-match lookup of a key among the fields of a JSON object. -/
def lookupField : List (String × Json) → String → Option Json
  | [], _ => none
  | (k, v) :: rest, key => if k = key then some v else lookupField rest key

/-- Insert or replace the value at a key, the model of serde_json Map insert. -/
def insertField (key : String) (v : Json) : List (String × Json) → List (String × Json)
  | [] => [(key, v)]
  | (k, w) :: rest => if k = key then (k, v) :: rest else (k, w) :: insertField key v rest

/-- The model of indexing a serde_json object with a key and calling take on
the resulting place: the old value at the key is returned and the entry is
replaced by null; a missing key is first inserted as null. -/
def takeField (key : String) : List (String × Json) → Json × List (String × Json)
  | [] => (.null, [(key, .null)])
  | (k, v) :: rest =>
    if k = key then (v, (k, .null) :: rest)
    else
      let (old, rest') := takeField key rest
      (old, (k, v) :: rest')

/-- A wrapper around a String whose Display and Debug renderings never leak
the wrapped text (src/lib.rs, struct Secret). -/
structure Secret where
  val : String

/-- The Debug rendering of a Secret (impl Debug for Secret). -/
def Secret.debugFmt (_ : Secret) : String := "***"

/-- The Display rendering of a Secret (impl Display for Secret). -/
def Secret.displayFmt (_ : Secret) : String := "***"

/-- Deref from Secret to the wrapped String. -/
def Secret.deref (s : Secret) : String := s.val

/-- Type of token from Vault (src/lib.rs, enum TokenType). -/
inductive TokenType where
  | Service
  | Batch

/-- Authentication data from Vault (src/lib.rs, struct Authentication). -/
structure Authentication where
  client_token : Secret
  accessor : String
  policies : List String
  token_policies : List String
  metadata : List (String × String)
  lease_duration : Nat
  renewable : Bool
  entity_id : String
  token_type : TokenType

/-- Vault generic response data (src/lib.rs, struct ResponseData). -/
structure ResponseData where
  request_id : String
  lease_id : String
  renewable : Bool
  lease_duration : Nat
  warnings : Option (List String)
  auth : Option Authentication
  data : Option Json

/-- Generic Vault response (src/lib.rs, enum Response, serde untagged). -/
inductive Response where
  | Error (errors : List String)
  | Response (data : ResponseData)
  | Empty

/-- Error type for the library (src/error.rs, enum Error). Causes carried by
the Rust variants are modelled as their message strings. -/
inductive Error where
  | ReqwestError (msg : String)
  | HeadersErrors (msg : String)
  | UrlParseError (msg : String)
  | InvalidVaultResponse (s : String)
  | ParseIntError (msg : String)
  | JsonError (msg : String)
  | MissingAddress
  | MissingToken
  | IoError (msg : String)
  | Utf8Error (msg : String)
  | VaultError (s : String)
  | MissingData (r : Response)
  | UnexpectedResponse (s : String)
  | MalformedResponse

/-- Transform the Response into a Result (src/lib.rs, Response::ok). -/
def Response.ok : VaultRs.Response → Except VaultRs.Error (Option ResponseData)
  | .Error errors => .error (.VaultError (String.intercalate "; " errors))
  | .Response d => .ok (some d)
  | .Empty => .ok none

/-- Turn a Response into the raw data payload (src/lib.rs, Response::data_value). -/
def Response.data_value : VaultRs.Response → Except VaultRs.Error Json
  | .Error errors => .error (.VaultError (String.intercalate "; " errors))
  | .Empty => .error (.MissingData .Empty)
  | .Response d =>
    match d.data with
    | none => .error (.MissingData (.Response d))
    | some j => .ok j

/-- Decode the response payload into a caller-chosen type (src/lib.rs,
Response::data). The serde_json::from_value decoder for the target type is
an explicit argument; its failure message feeds Error::JsonError. -/
def Response.data {α : Type} (dec : Json → Except String α) :
    VaultRs.Response → Except VaultRs.Error α
  | .Error errors => .error (.VaultError (String.intercalate "; " errors))
  | .Empty => .error (.MissingData .Empty)
  | .Response d =>
    match d.data with
    | none => .error (.MissingData (.Response d))
    | some j =>
      match dec j with
      | .ok t => .ok t
      | .error e => .error (.JsonError e)

/-- serde decode of a String from a JSON value. -/
def decodeString : Json → Option String
  | .str s => some s
  | _ => none

/-- serde decode of a Bool from a JSON value. -/
def decodeBool : Json → Option Bool
  | .bool b => some b
  | _ => none

/-- serde decode of a u64 from a JSON value. -/
def decodeU64 : Json → Option Nat
  | .num n => if 0 ≤ n ∧ n < 18446744073709551616 then some n.toNat else none
  | _ => none

/-- serde decode of a Vec of Strings from a JSON value. -/
def decodeStringList : Json → Option (List String)
  | .arr xs => xs.mapM decodeString
  | _ => none

/-- serde decode of a map from Strings to Strings from a JSON value. -/
def decodeStringMap : Json → Option (List (String × String))
  | .obj fs => fs.mapM (fun kv => (decodeString kv.2).map (fun s => (kv.1, s)))
  | _ => none

/-- serde decode of an optional struct field marked with a default: a missing
field or a null value yields none, any other value must decode. -/
def decodeOptField {α : Type} (fs : List (String × Json)) (key : String)
    (dec : Json → Option α) : Option (Option α) :=
  match lookupField fs key with
  | none => some none
  | some .null => some none
  | some j => (dec j).map some

/-- serde decode of TokenType (rename_all lowercase). -/
def decodeTokenType : Json → Option TokenType
  | .str "service" => some .Service
  | .str "batch" => some .Batch
  | _ => none

/-- serde decode of the Authentication struct. -/
def decodeAuthentication : Json → Option Authentication
  | .obj fs => do
    let tok ← lookupField fs "client_token" >>= decodeString
    let acc ← lookupField fs "accessor" >>= decodeString
    let pol ← lookupField fs "policies" >>= decodeStringList
    let tpol ← lookupField fs "token_policies" >>= decodeStringList
    let md ← lookupField fs "metadata" >>= decodeStringMap
    let ld ← lookupField fs "lease_duration" >>= decodeU64
    let ren ← lookupField fs "renewable" >>= decodeBool
    let eid ← lookupField fs "entity_id" >>= decodeString
    let tt ← lookupField fs "token_type" >>= decodeTokenType
    pure ⟨⟨tok⟩, acc, pol, tpol, md, ld, ren, eid, tt⟩
  | _ => none

/-- serde decode of the ResponseData struct: request_id, lease_id, renewable
and lease_duration are required; warnings, auth and data carry a serde
default and may be missing or null. -/
def decodeResponseData : Json → Option ResponseData
  | .obj fs => do
    let rid ← lookupField fs "request_id" >>= decodeString
    let lid ← lookupField fs "lease_id" >>= decodeString
    let ren ← lookupField fs "renewable" >>= decodeBool
    let ld ← lookupField fs "lease_duration" >>= decodeU64
    let w ← decodeOptField fs "warnings" decodeStringList
    let a ← decodeOptField fs "auth" decodeAuthentication
    let d ← decodeOptField fs "data" (fun j => some j)
    pure ⟨rid, lid, ren, ld, w, a, d⟩
  | _ => none

/-- serde decode of the Error struct variant of Response: an object carrying
a list of strings under an errors key (unknown fields are ignored). -/
def decodeErrorShape : Json → Option (List String)
  | .obj fs => lookupField fs "errors" >>= decodeStringList
  | _ => none

/-- serde untagged decode of Response: the Error shape is tried first, then
the Data shape, then the unit shape of the Empty variant, which matches
exactly the JSON null value; anything else is a decode error. -/
def decodeResponse (j : Json) : Except String VaultRs.Response :=
  match decodeErrorShape j with
  | some es => .ok (.Error es)
  | none =>
    match decodeResponseData j with
    | some rd => .ok (.Response rd)
    | none =>
      match j with
      | .null => .ok .Empty
      | _ => .error "data did not match any variant of untagged enum Response"

/-- HTTP method (reqwest::Method); LIST is the non-standard verb built with
Method::from_bytes. -/
inductive Method where
  | GET
  | POST
  | PUT
  | DELETE
  | LIST
  | OTHER (s : String)

/-- The opaque reqwest HTTP transport handle. -/
inductive HttpClient where
  | mk

/-- Vault API client (src/lib.rs, struct Client). -/
structure Client where
  token : Secret
  address : String
  client : HttpClient
  revoke_self_on_drop : Bool

/-- Client::internal_new: store the address and token verbatim; when no
transport handle is supplied, use the outcome of building a default one
(ClientBuilder::new().build(), an external effect passed as an argument). -/
def Client.internal_new (vault_address vault_token : String)
    (revoke_self_on_drop : Bool) (client : Option HttpClient)
    (builderResult : Except Error HttpClient) : Except Error Client :=
  match client with
  | some c => .ok ⟨⟨vault_token⟩, vault_address, c, revoke_self_on_drop⟩
  | none =>
    match builderResult with
    | .ok c => .ok ⟨⟨vault_token⟩, vault_address, c, revoke_self_on_drop⟩
    | .error e => .error e

/-- Client::environment_variable_or_provided: the explicit argument wins,
else the environment variable is consulted. -/
def environment_variable_or_provided (env : String → Option String)
    (name : String) (alternative : Option String) : Option String :=
  match alternative with
  | some s => some s
  | none => env name

/-- Client::from_environment: resolve address, token and CA certificate from
arguments or the environment; a missing address or token is a hard failure;
a CA certificate leads to a custom transport build (an external effect
passed as the certClientBuild argument); the revoke flag is always false. -/
def Client.from_environment (env : String → Option String)
    (certClientBuild : String → Except Error HttpClient)
    (builderResult : Except Error HttpClient)
    (address token ca_cert : Option String) : Except Error Client :=
  match environment_variable_or_provided env "VAULT_ADDR" address with
  | none => .error .MissingAddress
  | some addr =>
    match environment_variable_or_provided env "VAULT_TOKEN" token with
    | none => .error .MissingToken
    | some tok =>
      match environment_variable_or_provided env "VAULT_CACERT" ca_cert with
      | some cert =>
        match certClientBuild cert with
        | .error e => .error e
        | .ok c => Client.internal_new addr tok false (some c) builderResult
      | none => Client.internal_new addr tok false none builderResult

/-- Client::new: delegate to from_environment, then overwrite the
revoke_self_on_drop flag with the caller-supplied value. -/
def Client.new (env : String → Option String)
    (certClientBuild : String → Except Error HttpClient)
    (builderResult : Except Error HttpClient)
    (vault_address vault_token root_ca : Option String)
    (revoke_self_on_drop : Bool) : Except Error Client :=
  match Client.from_environment env certClientBuild builderResult
      vault_address vault_token root_ca with
  | .error e => .error e
  | .ok c => .ok { c with revoke_self_on_drop := revoke_self_on_drop }

/-- The url library as an external collaborator: parsing a base address and
joining it with a path, both fallible. Urls are kept in rendered form. -/
structure UrlModel where
  parse : String → Except String String
  join : String → String → Except String String

/-- An HTTP request about to be executed. -/
structure Request where
  method : Method
  url : String
  headers : List (String × String)
  body : Option Json

/-- Client::build_request: parse the stored address as a URL at call time,
join it with the fixed /v1/ prefix plus the path, and attach the token
header; either URL failure surfaces as Error::UrlParseError. -/
def Client.build_request (um : UrlModel) (c : Client) (path : String)
    (method : Method) : Except Error Request :=
  match um.parse c.address with
  | .error e => .error (.UrlParseError e)
  | .ok base =>
    match um.join base ("/v1/" ++ path) with
    | .error e => .error (.UrlParseError e)
    | .ok u => .ok ⟨method, u, [("X-Vault-Token", c.token.val)], none⟩

/-- Client::execute_request_no_body: the reply body must be empty, otherwise
fail with Error::UnexpectedResponse carrying the body. -/
def execute_request_no_body (body : String) : Except Error Unit :=
  if body.isEmpty then .ok () else .error (.UnexpectedResponse body)

/-- Client::execute_request for a Response target: parse the reply text as
JSON (jsonParse models serde_json text parsing) and decode the untagged
Response shape; either failure surfaces as Error::JsonError. -/
def execute_request (jsonParse : String → Except String Json)
    (replyBody : String) : Except Error VaultRs.Response :=
  match jsonParse replyBody with
  | .error e => .error (.JsonError e)
  | .ok j =>
    match decodeResponse j with
    | .ok r => .ok r
    | .error e => .error (.JsonError e)

/-- Vault::write for Client: build the request with the serialized payload
as JSON body; when a response is expected, decode the reply like read does;
otherwise require an empty reply body and synthesize the Empty response.
The reply body delivered by the transport is an explicit argument. -/
def Client.write (um : UrlModel) (jsonParse : String → Except String Json)
    (c : Client) (path : String) (payload : Json) (method : Method)
    (response_expected : Bool) (replyBody : String) :
    Except Error VaultRs.Response :=
  match Client.build_request um c path method with
  | .error e => .error e
  | .ok req =>
    let _request := { req with body := some payload }
    if response_expected then
      execute_request jsonParse replyBody
    else
      match execute_request_no_body replyBody with
      | .ok _ => .ok .Empty
      | .error e => .error e

/-- Type of key in the transit secrets engine (src/secrets/transit.rs). -/
inductive KeyType where
  | AES256GCM96
  | ChaCha20Poly1305AEAD
  | ED25519
  | EC256
  | RSA2048
  | RSA4096

/-- serde serialization of KeyType (per-variant renames). -/
def KeyType.serialize : KeyType → Json
  | .AES256GCM96 => .str "aes256-gcm96"
  | .ChaCha20Poly1305AEAD => .str "chacha20-poly1305"
  | .ED25519 => .str "ed25519"
  | .EC256 => .str "ecdsa-p256"
  | .RSA2048 => .str "rsa-2048"
  | .RSA4096 => .str "rsa-4096"

/-- Parameters for creating a new transit key (src/secrets/transit.rs,
struct CreateKey). -/
structure CreateKey where
  name : String
  convergent_encryption : Option Bool
  derived : Option Bool
  exportable : Option Bool
  allow_plaintext_backup : Option Bool
  type : KeyType

/-- An optional struct field under skip_serializing_if Option::is_none:
absent when none, present otherwise. -/
def optJson {α : Type} (key : String) (v : Option α) (f : α → Json) :
    List (String × Json) :=
  match v with
  | none => []
  | some a => [(key, f a)]

/-- serde_json::to_value of a CreateKey: name and type always present, the
four optional flags only when set. -/
def CreateKey.serializeFields (k : CreateKey) : List (String × Json) :=
  ("name", .str k.name) ::
    (optJson "convergent_encryption" k.convergent_encryption .bool
      ++ optJson "derived" k.derived .bool
      ++ optJson "exportable" k.exportable .bool
      ++ optJson "allow_plaintext_backup" k.allow_plaintext_backup .bool
      ++ [("type", KeyType.serialize k.type)])

/-- serde_json::to_value of a CreateKey as a JSON value. -/
def CreateKey.serialize (k : CreateKey) : Json :=
  .obj k.serializeFields

/-- A pending post call: the target URL path, the JSON body and whether a
response body is expected. -/
structure PostCall where
  url : String
  body : Json
  response_expected : Bool

/-- Transit::create_key: serialize the key, take the name value out of the
serialized object to build the URL, and post the remaining object; none
models the panic when the taken value is not a string. -/
def Transit.create_key (path : String) (key : CreateKey) : Option PostCall :=
  match CreateKey.serialize key with
  | .obj fs =>
    let taken := takeField "name" fs
    match taken.1 with
    | .str name => some ⟨path ++ "/keys/" ++ name, .obj taken.2, false⟩
    | _ => none
  | _ => none

/-- as_str with a malformed-response failure, the per-element check of
Transit::list_keys. -/
def jsonAsStr : Json → Except Error String
  | .str t => .ok t
  | _ => .error .MalformedResponse

/-- Transit::list_keys, from the decoded listing payload onwards: the keys
field must exist, must be an array, and every element must be a string;
each failure point reports Error::MalformedResponse. Modelled from the spec:
the MalformedResponse error variant itself is referenced by
src/secrets/transit.rs but its declaration is absent from src/error.rs. -/
def Transit.list_keys (data : List (String × Json)) : Except Error (List String) :=
  match lookupField data "keys" with
  | none => .error .MalformedResponse
  | some keysV =>
    match keysV with
    | .arr keys => keys.mapM jsonAsStr
    | _ => .error .MalformedResponse

/-- Listing visibility of a mount (src/sys/mounts.rs, rename_all lowercase). -/
inductive ListingVisibility where
  | Unauth
  | Hidden

/-- serde serialization of ListingVisibility. -/
def ListingVisibility.serialize : ListingVisibility → Json
  | .Unauth => .str "unauth"
  | .Hidden => .str "hidden"

/-- serde decode of ListingVisibility. -/
def decodeListingVisibility : Json → Option ListingVisibility
  | .str "unauth" => some .Unauth
  | .str "hidden" => some .Hidden
  | _ => none

/-- Configuration options for secrets engines (src/sys/mounts.rs, struct
SecretsEngineConfig); string sets are modelled as lists. -/
structure SecretsEngineConfig where
  default_lease_ttl : Option Nat
  max_lease_ttl : Option Nat
  force_no_cache : Option Bool
  audit_non_hmac_request_keys : Option (List String)
  audit_non_hmac_response_keys : Option (List String)
  listing_visibility : Option ListingVisibility
  passthrough_request_headers : Option (List String)
  allowed_response_headers : Option (List String)
  options : Option (List (String × String))
  «local» : Option Bool
  seal_wrap : Option Bool

/-- serde serialization of SecretsEngineConfig: every field is optional and
skipped when none. -/
def SecretsEngineConfig.serialize (c : SecretsEngineConfig) : Json :=
  .obj (optJson "default_lease_ttl" c.default_lease_ttl (fun n => .num (n : Int))
    ++ optJson "max_lease_ttl" c.max_lease_ttl (fun n => .num (n : Int))
    ++ optJson "force_no_cache" c.force_no_cache .bool
    ++ optJson "audit_non_hmac_request_keys" c.audit_non_hmac_request_keys
      (fun xs => .arr (xs.map .str))
    ++ optJson "audit_non_hmac_response_keys" c.audit_non_hmac_response_keys
      (fun xs => .arr (xs.map .str))
    ++ optJson "listing_visibility" c.listing_visibility ListingVisibility.serialize
    ++ optJson "passthrough_request_headers" c.passthrough_request_headers
      (fun xs => .arr (xs.map .str))
    ++ optJson "allowed_response_headers" c.allowed_response_headers
      (fun xs => .arr (xs.map .str))
    ++ optJson "options" c.options
      (fun kvs => .obj (kvs.map (fun kv => (kv.1, .str kv.2))))
    ++ optJson "local" c.«local» .bool
    ++ optJson "seal_wrap" c.seal_wrap .bool)

/-- serde decode of SecretsEngineConfig: every field carries a serde default
and may be missing or null. -/
def decodeSecretsEngineConfig : Json → Option SecretsEngineConfig
  | .obj fs => do
    let a ← decodeOptField fs "default_lease_ttl" decodeU64
    let b ← decodeOptField fs "max_lease_ttl" decodeU64
    let c ← decodeOptField fs "force_no_cache" decodeBool
    let d ← decodeOptField fs "audit_non_hmac_request_keys" decodeStringList
    let e ← decodeOptField fs "audit_non_hmac_response_keys" decodeStringList
    let f ← decodeOptField fs "listing_visibility" decodeListingVisibility
    let g ← decodeOptField fs "passthrough_request_headers" decodeStringList
    let h ← decodeOptField fs "allowed_response_headers" decodeStringList
    let i ← decodeOptField fs "options" decodeStringMap
    let j ← decodeOptField fs "local" decodeBool
    let k ← decodeOptField fs "seal_wrap" decodeBool
    pure ⟨a, b, c, d, e, f, g, h, i, j, k⟩
  | _ => none

/-- A secrets engine mount (src/sys/mounts.rs, struct SecretEngine). -/
structure SecretEngine where
  path : String
  type : String
  description : Option String
  config : Option SecretsEngineConfig

/-- serde_json::to_value of a SecretEngine: path and type always present,
description and config only when set. -/
def SecretEngine.serializeFields (e : SecretEngine) : List (String × Json) :=
  ("path", .str e.path) :: ("type", .str e.type) ::
    (optJson "description" e.description .str
      ++ optJson "config" e.config SecretsEngineConfig.serialize)

/-- serde_json::to_value of a SecretEngine as a JSON value. -/
def SecretEngine.serialize (e : SecretEngine) : Json :=
  .obj e.serializeFields

/-- serde decode of a SecretEngine: path and type are required strings,
description and config carry serde defaults. -/
def decodeSecretEngine : Json → Option SecretEngine
  | .obj fs => do
    let p ← lookupField fs "path" >>= decodeString
    let t ← lookupField fs "type" >>= decodeString
    let d ← decodeOptField fs "description" decodeString
    let c ← decodeOptField fs "config" decodeSecretsEngineConfig
    pure ⟨p, t, d, c⟩
  | _ => none

/-- Mounts::enable: serialize the engine, take the path value out of the
serialized object to build the URL, and post the remaining object; none
models the panic when the taken value is not a string. -/
def Mounts.enable (engine : SecretEngine) : Option PostCall :=
  match SecretEngine.serialize engine with
  | .obj fs =>
    let taken := takeField "path" fs
    match taken.1 with
    | .str p => some ⟨"sys/mounts/" ++ p, .obj taken.2, false⟩
    | _ => none
  | _ => none

/-- Rust str::trim_end_matches with a slash pattern: drop every trailing
slash. -/
def trimTrailingSlashes (s : String) : String :=
  ⟨(s.data.reverse.dropWhile (fun c => c == '/')).reverse⟩

/-- Mounts::list, from the decoded map of per-mount objects onwards: trim
the trailing slashes from each path key, re-inject the trimmed path into
the per-mount object, structurally decode it as a SecretEngine and key the
result by the trimmed path; a decode failure is an Error::JsonError. -/
def Mounts.list (values : List (String × List (String × Json))) :
    Except Error (List (String × SecretEngine)) :=
  values.mapM (fun pm =>
    let path := trimTrailingSlashes pm.1
    let m := insertField "path" (.str path) pm.2
    match decodeSecretEngine (.obj m) with
    | some engine => .ok (path, engine)
    | none => .error (.JsonError "invalid type for SecretEngine"))

/-- Claim C1: Response::ok turns the Error variant into a failure carrying
the error strings joined with a semicolon separator in their original order,
the Data variant into a success with the inner record, and the Empty variant
into a success with an explicit no-data result distinct from any populated
record. -/
theorem claim_c1_response_ok (es : List String) (d : ResponseData) :
    Response.ok (.Error es) = .error (.VaultError (String.intercalate "; " es)) ∧
    Response.ok (.Response d) = .ok (some d) ∧
    Response.ok .Empty = (.ok none : Except Error (Option ResponseData)) ∧
    (Except.ok none : Except Error (Option ResponseData)) ≠ .ok (some d) := by
  refine ⟨rfl, rfl, rfl, fun h => ?_⟩
  injection h with h2
  exact Option.noConfusion h2

/-- Claim C2: on the Empty variant or a Data variant without a payload,
Response::data and Response::data_value fail with a missing-data error
carrying the offending response; on a Data variant with a payload,
Response::data succeeds exactly when the decoder for the target type does
and a decoder failure surfaces as a JSON decode error, not a missing-data
error; on the Error variant both fail with the service error. -/
theorem claim_c2_data_projection {α : Type} (dec : Json → Except String α) :
    (Response.data dec .Empty = .error (.MissingData .Empty) ∧
      Response.data_value .Empty = .error (.MissingData .Empty)) ∧
    (∀ d : ResponseData, d.data = none →
      Response.data dec (.Response d) = .error (.MissingData (.Response d)) ∧
      Response.data_value (.Response d) = .error (.MissingData (.Response d))) ∧
    (∀ (d : ResponseData) (j : Json), d.data = some j →
      ((∃ t, Response.data dec (.Response d) = .ok t) ↔ ∃ t, dec j = .ok t) ∧
      (∀ e, dec j = .error e →
        Response.data dec (.Response d) = .error (.JsonError e)) ∧
      Response.data_value (.Response d) = .ok j) ∧
    (∀ es,
      Response.data dec (.Error es) =
        .error (.VaultError (String.intercalate "; " es)) ∧
      Response.data_value (.Error es) =
        .error (.VaultError (String.intercalate "; " es))) := by
  refine ⟨⟨rfl, rfl⟩, ?_, ?_, fun es => ⟨rfl, rfl⟩⟩
  · intro d hd
    constructor
    · simp [Response.data, hd]
    · simp [Response.data_value, hd]
  · intro d j hj
    refine ⟨?_, ?_, ?_⟩
    · constructor
      · rintro ⟨t, ht⟩
        cases hdec : dec j with
        | ok t2 => exact ⟨t2, rfl⟩
        | error e => simp [Response.data, hj, hdec] at ht
      · rintro ⟨t, ht⟩
        exact ⟨t, by simp [Response.data, hj, ht]⟩
    · intro e he
      simp [Response.data, hj, he]
    · simp [Response.data_value, hj]

/-- Claim C2 witness at a concrete decoder and concrete responses. -/
theorem claim_c2_witness :
    Response.data
      (fun j => match j with
        | .num n => Except.ok n.toNat
        | _ => Except.error "invalid type")
      (.Response ⟨"id", "l", false, 0, none, none, none⟩) =
      .error (.MissingData (.Response ⟨"id", "l", false, 0, none, none, none⟩)) ∧
    Response.data
      (fun j => match j with
        | .num n => Except.ok n.toNat
        | _ => Except.error "invalid type")
      (.Response ⟨"id", "l", false, 0, none, none, some (.str "x")⟩) =
      .error (.JsonError "invalid type") := by
  refine ⟨((claim_c2_data_projection _).2.1 _ rfl).1, ?_⟩
  exact ((claim_c2_data_projection _).2.2.1 _ (.str "x") rfl).2.1 "invalid type" rfl

/-- Claim C3: a write that expects no response fails with an
unexpected-response error carrying any non-empty reply body, whatever the
payload was, and succeeds with the synthesized Empty response on an empty
reply body. -/
theorem claim_c3_write_empty_required (um : UrlModel)
    (jsonParse : String → Except String Json) (c : Client) (path : String)
    (payload : Json) (method : Method) (reply : String) (req : Request)
    (hreq : Client.build_request um c path method = .ok req) :
    Client.write um jsonParse c path payload method false reply =
      if reply.isEmpty then .ok Response.Empty
      else .error (.UnexpectedResponse reply) := by
  simp only [Client.write, hreq, execute_request_no_body]
  by_cases h : reply.isEmpty <;> simp [h]

/-- Claim C3 witness at a concrete client, URL model and reply bodies. -/
theorem claim_c3_witness :
    Client.write ⟨fun s => .ok s, fun b p => .ok (b ++ p)⟩ (fun _ => .error "eof")
      ⟨⟨"t"⟩, "http://v", .mk, false⟩ "p" .null .POST false "leftover" =
      .error (.UnexpectedResponse "leftover") ∧
    Client.write ⟨fun s => .ok s, fun b p => .ok (b ++ p)⟩ (fun _ => .error "eof")
      ⟨⟨"t"⟩, "http://v", .mk, false⟩ "p" .null .POST false "" =
      .ok Response.Empty := by
  constructor
  · have h := claim_c3_write_empty_required ⟨fun s => .ok s, fun b p => .ok (b ++ p)⟩
      (fun _ => .error "eof") ⟨⟨"t"⟩, "http://v", .mk, false⟩ "p" .null .POST
      "leftover" ⟨.POST, "http://v/v1/p", [("X-Vault-Token", "t")], none⟩ rfl
    simpa using h
  · have h := claim_c3_write_empty_required ⟨fun s => .ok s, fun b p => .ok (b ++ p)⟩
      (fun _ => .error "eof") ⟨⟨"t"⟩, "http://v", .mk, false⟩ "p" .null .POST
      "" ⟨.POST, "http://v/v1/p", [("X-Vault-Token", "t")], none⟩ rfl
    simpa using h

/-- Claim C4 counterexample: decoding the JSON null body yields the Empty
variant, so the Empty variant is not only synthesized by the client; the
untagged unit variant matches null. -/
theorem claim_c4_counterexample :
    decodeResponse Json.null = .ok Response.Empty ∧
    ¬ (∀ j : Json, decodeResponse j ≠ .ok Response.Empty) := by
  refine ⟨rfl, fun h => h Json.null rfl⟩

/-- Claim C4 as amended: decoding tries the Error shape first, then the Data
shape, then the unit shape that matches exactly the JSON null body and
yields the Empty variant; a body matching none of the three is a hard
decode error, never silently treated as Error; apart from the null body the
Empty variant only arises synthesized by the client in write with
response_expected false. -/
theorem claim_c4_decode_order (j : Json) :
    (∀ es, decodeErrorShape j = some es → decodeResponse j = .ok (.Error es)) ∧
    (∀ rd, decodeErrorShape j = none → decodeResponseData j = some rd →
      decodeResponse j = .ok (.Response rd)) ∧
    (decodeErrorShape j = none → decodeResponseData j = none → j ≠ .null →
      ∃ e, decodeResponse j = .error e) ∧
    (decodeResponse j = .ok .Empty ↔ j = .null) := by
  refine ⟨?_, ?_, ?_, ?_, ?_⟩
  · intro es hes
    simp [decodeResponse, hes]
  · intro rd he hd
    simp [decodeResponse, he, hd]
  · intro he hd hne
    simp only [decodeResponse, he, hd]
    cases j with
    | null => exact absurd rfl hne
    | bool b => exact ⟨_, rfl⟩
    | num n => exact ⟨_, rfl⟩
    | str s => exact ⟨_, rfl⟩
    | arr xs => exact ⟨_, rfl⟩
    | obj fs => exact ⟨_, rfl⟩
  · intro h
    cases he : decodeErrorShape j with
    | some es => simp [decodeResponse, he] at h
    | none =>
      cases hd : decodeResponseData j with
      | some rd => simp [decodeResponse, he, hd] at h
      | none =>
        cases j <;> simp_all [decodeResponse]
  · intro h
    subst h
    rfl

/-- Claim C4 witness at concrete bodies for each decoding shape. -/
theorem claim_c4_witness :
    decodeResponse (.obj [("errors", .arr [.str "boom"])]) = .ok (.Error ["boom"]) ∧
    decodeResponse (.obj [("request_id", .str "r"), ("lease_id", .str "l"),
      ("renewable", .bool false), ("lease_duration", .num 0)]) =
      .ok (.Response ⟨"r", "l", false, 0, none, none, none⟩) ∧
    (∃ e, decodeResponse (.str "x") = .error e) ∧
    decodeResponse Json.null = .ok .Empty := by
  refine ⟨(claim_c4_decode_order _).1 ["boom"] rfl, ?_, ?_, ?_⟩
  · exact (claim_c4_decode_order _).2.1 ⟨"r", "l", false, 0, none, none, none⟩ rfl rfl
  · exact (claim_c4_decode_order _).2.2.1 rfl rfl (fun h => Json.noConfusion h)
  · exact (claim_c4_decode_order _).2.2.2.mpr rfl

/-- Claim C5 counterexample: for a concrete key-creation argument the
submitted body still holds the identifying name field, with a null value,
so the field is not removed from the body in the key-creation case. -/
theorem claim_c5_counterexample :
    Transit.create_key "transit" ⟨"test", none, none, none, none, .RSA4096⟩ =
      some ⟨"transit/keys/test",
        .obj [("name", .null), ("type", .str "rsa-4096")], false⟩ ∧
    lookupField [("name", Json.null), ("type", Json.str "rsa-4096")] "name" ≠ none := by
  refine ⟨rfl, fun h => ?_⟩
  simp [lookupField] at h

/-- Claim C5 as amended: both operations extract the identifying field
value from the serialized struct to build the target URL, and both leave
the identifying key in the submitted body with its value replaced by JSON
null while every other field is unchanged; the two operations behave
symmetrically. -/
theorem claim_c5_identifying_field (p : String) (k : CreateKey)
    (e : SecretEngine) :
    ∃ kbody ebody,
      Transit.create_key p k =
        some ⟨p ++ "/keys/" ++ k.name, .obj kbody, false⟩ ∧
      lookupField kbody "name" = some .null ∧
      (∀ key, key ≠ "name" →
        lookupField kbody key = lookupField k.serializeFields key) ∧
      Mounts.enable e = some ⟨"sys/mounts/" ++ e.path, .obj ebody, false⟩ ∧
      lookupField ebody "path" = some .null ∧
      (∀ key, key ≠ "path" →
        lookupField ebody key = lookupField e.serializeFields key) := by
  refine ⟨("name", .null) ::
      (optJson "convergent_encryption" k.convergent_encryption .bool
        ++ optJson "derived" k.derived .bool
        ++ optJson "exportable" k.exportable .bool
        ++ optJson "allow_plaintext_backup" k.allow_plaintext_backup .bool
        ++ [("type", KeyType.serialize k.type)]),
    ("path", .null) :: ("type", .str e.type) ::
      (optJson "description" e.description .str
        ++ optJson "config" e.config SecretsEngineConfig.serialize),
    ?_, ?_, ?_, ?_, ?_, ?_⟩
  · simp [Transit.create_key, CreateKey.serialize, CreateKey.serializeFields, takeField]
  · simp [lookupField]
  · intro key hk
    simp [lookupField, CreateKey.serializeFields, if_neg (Ne.symm hk)]
  · simp [Mounts.enable, SecretEngine.serialize, SecretEngine.serializeFields, takeField]
  · simp [lookupField]
  · intro key hk
    simp [lookupField, SecretEngine.serializeFields, if_neg (Ne.symm hk)]

/-- Claim C5 witness at a concrete key and a concrete engine. -/
theorem claim_c5_witness :
    ∃ kbody ebody,
      Transit.create_key "transit" ⟨"test", none, none, none, none, .RSA4096⟩ =
        some ⟨"transit" ++ "/keys/" ++ "test", .obj kbody, false⟩ ∧
      lookupField kbody "name" = some .null ∧
      (∀ key, key ≠ "name" →
        lookupField kbody key =
          lookupField (CreateKey.serializeFields
            ⟨"test", none, none, none, none, .RSA4096⟩) key) ∧
      Mounts.enable ⟨"kv2", "kv", none, none⟩ =
        some ⟨"sys/mounts/" ++ "kv2", .obj ebody, false⟩ ∧
      lookupField ebody "path" = some .null ∧
      (∀ key, key ≠ "path" →
        lookupField ebody key =
          lookupField (SecretEngine.serializeFields ⟨"kv2", "kv", none, none⟩) key) :=
  claim_c5_identifying_field "transit" ⟨"test", none, none, none, none, .RSA4096⟩
    ⟨"kv2", "kv", none, none⟩

/-- A JSON value that is not a string fails the per-element string check
with the malformed-response error. -/
lemma jsonAsStr_of_not_str {x : Json} (h : ∀ s, x ≠ .str s) :
    jsonAsStr x = .error .MalformedResponse := by
  cases x with
  | str s => exact absurd rfl (h s)
  | null => rfl
  | bool b => rfl
  | num n => rfl
  | arr xs => rfl
  | obj fs => rfl

/-- The per-element string check can only fail with the malformed-response
error. -/
lemma jsonAsStr_error {x : Json} {e : Error} (h : jsonAsStr x = .error e) :
    e = .MalformedResponse := by
  cases x <;> simp_all [jsonAsStr]

/-- Bind on a success passes the value to the continuation. -/
lemma except_bind_ok {α β ε : Type} (a : α) (f : α → Except ε β) :
    (Except.ok a >>= f) = f a := rfl

/-- Bind on a failure keeps the failure. -/
lemma except_bind_error {α β ε : Type} (e : ε) (f : α → Except ε β) :
    ((Except.error e : Except ε α) >>= f) = .error e := rfl

/-- Mapping the per-element string check over a list holding a non-string
element yields the malformed-response error. -/
lemma mapM_jsonAsStr_error {xs : List Json}
    (h : ∃ x ∈ xs, ∀ s, x ≠ Json.str s) :
    xs.mapM jsonAsStr = .error .MalformedResponse := by
  rw [← List.mapM'_eq_mapM]
  induction xs with
  | nil => simp at h
  | cons a as ih =>
    obtain ⟨x, hx, hns⟩ := h
    rcases List.mem_cons.mp hx with hxa | hxas
    · subst hxa
      simp [List.mapM'_cons, jsonAsStr_of_not_str hns, except_bind_error]
    · cases ha : jsonAsStr a with
      | error e =>
        rw [jsonAsStr_error ha] at ha
        simp [List.mapM'_cons, ha, except_bind_error]
      | ok t =>
        simp [List.mapM'_cons, ha, except_bind_ok, except_bind_error,
          ih ⟨x, hxas, hns⟩]

/-- Mapping the per-element string check over a list of strings succeeds and
returns them in order. -/
lemma mapM_jsonAsStr_strings (ss : List String) :
    (ss.map Json.str).mapM jsonAsStr = .ok ss := by
  rw [← List.mapM'_eq_mapM]
  induction ss with
  | nil => rfl
  | cons a as ih =>
    simp only [List.map_cons, List.mapM'_cons, ih]
    rfl

/-- Claim C6: list_keys fails with the malformed-response error kind when
the keys field is absent, when it is present but not an array, and when the
array holds a non-string element; when all three checks pass the strings
come back in their original order. -/
theorem claim_c6_list_keys (data : List (String × Json)) :
    (lookupField data "keys" = none →
      Transit.list_keys data = .error .MalformedResponse) ∧
    (∀ j, lookupField data "keys" = some j → (∀ xs, j ≠ .arr xs) →
      Transit.list_keys data = .error .MalformedResponse) ∧
    (∀ xs, lookupField data "keys" = some (.arr xs) →
      (∃ x ∈ xs, ∀ s, x ≠ Json.str s) →
      Transit.list_keys data = .error .MalformedResponse) ∧
    (∀ ss, lookupField data "keys" = some (.arr (ss.map Json.str)) →
      Transit.list_keys data = .ok ss) := by
  refine ⟨?_, ?_, ?_, ?_⟩
  · intro h
    simp [Transit.list_keys, h]
  · intro j hj hne
    cases j with
    | arr xs => exact absurd rfl (hne xs)
    | null => simp [Transit.list_keys, hj]
    | bool b => simp [Transit.list_keys, hj]
    | num n => simp [Transit.list_keys, hj]
    | str s => simp [Transit.list_keys, hj]
    | obj fs => simp [Transit.list_keys, hj]
  · intro xs hxs hex
    simp only [Transit.list_keys, hxs]
    exact mapM_jsonAsStr_error hex
  · intro ss hss
    simp only [Transit.list_keys, hss]
    exact mapM_jsonAsStr_strings ss

/-- Claim C6 witness at concrete listing payloads for the three failure
points and the success path. -/
theorem claim_c6_witness :
    Transit.list_keys [("other", .null)] = .error .MalformedResponse ∧
    Transit.list_keys [("keys", .str "x")] = .error .MalformedResponse ∧
    Transit.list_keys [("keys", .arr [.str "a", .num 3])] =
      .error .MalformedResponse ∧
    Transit.list_keys [("keys", .arr [.str "a", .str "b"])] = .ok ["a", "b"] := by
  refine ⟨(claim_c6_list_keys _).1 rfl, ?_, ?_, ?_⟩
  · exact (claim_c6_list_keys _).2.1 (.str "x") rfl
      (fun xs h => Json.noConfusion h)
  · exact (claim_c6_list_keys _).2.2.1 [.str "a", .num 3] rfl
      ⟨.num 3, List.Mem.tail _ (List.Mem.head _), fun s h => Json.noConfusion h⟩
  · exact (claim_c6_list_keys _).2.2.2 ["a", "b"] rfl

/-- Looking up a key right after inserting it finds the inserted value. -/
lemma lookupField_insertField_self (fs : List (String × Json)) (k : String)
    (v : Json) : lookupField (insertField k v fs) k = some v := by
  induction fs with
  | nil => simp [insertField, lookupField]
  | cons kv rest ih =>
    obtain ⟨k2, w⟩ := kv
    by_cases hk : k2 = k
    · subst hk
      simp [insertField, lookupField]
    · simp [insertField, lookupField, hk, ih]

/-- A successfully decoded SecretEngine takes its path field from the path
key of the decoded object. -/
lemma decodeSecretEngine_path {fs : List (String × Json)} {e : SecretEngine}
    (h : decodeSecretEngine (.obj fs) = some e) :
    lookupField fs "path" >>= decodeString = some e.path := by
  cases hp : lookupField fs "path" >>= decodeString with
  | none => simp [decodeSecretEngine, hp] at h
  | some p =>
    cases ht : lookupField fs "type" >>= decodeString with
    | none => simp [decodeSecretEngine, hp, ht] at h
    | some t =>
      cases hd : decodeOptField fs "description" decodeString with
      | none => simp [decodeSecretEngine, hp, ht, hd] at h
      | some d =>
        cases hc : decodeOptField fs "config" decodeSecretsEngineConfig with
        | none => simp [decodeSecretEngine, hp, ht, hd, hc] at h
        | some c =>
          simp [decodeSecretEngine, hp, ht, hd, hc] at h
          subst h
          rfl

/-- Claim C7: for a mount-listing reply binding a single path key to a
per-mount object with no path field, a successful Mounts::list keys the
result by the path with its trailing slashes trimmed and the decoded record
carries that trimmed path in its path field. -/
theorem claim_c7_mounts_list (p : String) (inner : List (String × Json))
    (m : List (String × SecretEngine))
    (_hnp : lookupField inner "path" = none)
    (h : Mounts.list [(p, inner)] = .ok m) :
    ∃ engine, m = [(trimTrailingSlashes p, engine)] ∧
      engine.path = trimTrailingSlashes p := by
  simp only [Mounts.list] at h
  rw [← List.mapM'_eq_mapM] at h
  simp only [List.mapM'_cons, List.mapM'_nil] at h
  cases hde : decodeSecretEngine
      (.obj (insertField "path" (.str (trimTrailingSlashes p)) inner)) with
  | none => simp [hde, except_bind_error] at h
  | some engine =>
    simp only [hde, except_bind_ok] at h
    refine ⟨engine, ?_, ?_⟩
    · cases h
      rfl
    · have hpath := decodeSecretEngine_path hde
      rw [lookupField_insertField_self] at hpath
      simp [decodeString] at hpath
      exact hpath.symm

/-- Claim C7 witness at the concrete reply shape from the specification. -/
theorem claim_c7_witness :
    ∃ engine, [("kv", (⟨"kv", "kv", none, none⟩ : SecretEngine))] =
      [(trimTrailingSlashes "kv/", engine)] ∧
      engine.path = trimTrailingSlashes "kv/" :=
  claim_c7_mounts_list "kv/" [("type", .str "kv")]
    [("kv", ⟨"kv", "kv", none, none⟩)] rfl rfl

/-- Claim C8: construction via internal_new stores any base address string
verbatim and succeeds whatever that string is; the address is parsed as a
URL only inside build_request at call time, where a parse failure surfaces
as a URL-parse error and a successful parse is joined with the fixed /v1/
prefix plus the path segment. -/
theorem claim_c8_late_url_validation (addr tok : String) (flag : Bool)
    (hc : HttpClient) (builder : Except Error HttpClient) (um : UrlModel)
    (path : String) (method : Method) :
    Client.internal_new addr tok flag (some hc) builder =
      .ok ⟨⟨tok⟩, addr, hc, flag⟩ ∧
    (∀ e, um.parse addr = .error e →
      Client.build_request um ⟨⟨tok⟩, addr, hc, flag⟩ path method =
        .error (.UrlParseError e)) ∧
    (∀ base u, um.parse addr = .ok base →
      um.join base ("/v1/" ++ path) = .ok u →
      Client.build_request um ⟨⟨tok⟩, addr, hc, flag⟩ path method =
        .ok ⟨method, u, [("X-Vault-Token", tok)], none⟩) := by
  refine ⟨rfl, ?_, ?_⟩
  · intro e he
    simp [Client.build_request, he]
  · intro base u hb hu
    simp [Client.build_request, hb, hu]

/-- Claim C8 witness at a concrete URL model, with a malformed address that
still constructs and then fails its first request, and a well-formed
address whose request carries the /v1/ prefixed path. -/
theorem claim_c8_witness :
    Client.internal_new "not a url" "t" false (some .mk) (.ok .mk) =
      .ok ⟨⟨"t"⟩, "not a url", .mk, false⟩ ∧
    Client.build_request
      ⟨fun s => if s = "not a url" then .error "relative URL without a base"
        else .ok s,
       fun b q => .ok (b ++ q)⟩
      ⟨⟨"t"⟩, "not a url", .mk, false⟩ "p" .GET =
      .error (.UrlParseError "relative URL without a base") ∧
    Client.build_request
      ⟨fun s => if s = "not a url" then .error "relative URL without a base"
        else .ok s,
       fun b q => .ok (b ++ q)⟩
      ⟨⟨"t"⟩, "http://v", .mk, false⟩ "p" .GET =
      .ok ⟨.GET, "http://v" ++ "/v1/" ++ "p", [("X-Vault-Token", "t")], none⟩ := by
  refine ⟨(claim_c8_late_url_validation "not a url" "t" false .mk (.ok .mk)
      ⟨fun s => if s = "not a url" then .error "relative URL without a base"
        else .ok s, fun b q => .ok (b ++ q)⟩ "p" .GET).1, ?_, ?_⟩
  · exact (claim_c8_late_url_validation "not a url" "t" false .mk (.ok .mk)
      ⟨fun s => if s = "not a url" then .error "relative URL without a base"
        else .ok s, fun b q => .ok (b ++ q)⟩ "p" .GET).2.1
      "relative URL without a base" rfl
  · have h := (claim_c8_late_url_validation "http://v" "t" false .mk (.ok .mk)
      ⟨fun s => if s = "not a url" then .error "relative URL without a base"
        else .ok s, fun b q => .ok (b ++ q)⟩ "p" .GET).2.2
      "http://v" ("http://v" ++ "/v1/" ++ "p") rfl
    exact h (by rw [String.append_assoc])

/-- Claim C9 counterexample: for the wrapped text that is itself a star,
the debug and display renderings, while equal to the fixed marker, do
contain the wrapped text as a substring, so the renderings do not avoid
containing the wrapped text for every Secret. -/
theorem claim_c9_counterexample :
    Secret.debugFmt ⟨"*"⟩ = "***" ∧ Secret.displayFmt ⟨"*"⟩ = "***" ∧
    "*".data <:+: (Secret.debugFmt ⟨"*"⟩).data ∧
    "*".data <:+: (Secret.displayFmt ⟨"*"⟩).data :=
  ⟨rfl, rfl, ⟨[], ['*', '*'], rfl⟩, ⟨[], ['*', '*'], rfl⟩⟩

/-- Claim C9 as amended: the debug and display renderings of every Secret
equal the fixed marker of three stars, so they contain the wrapped text
only when that text happens to be a substring of the marker itself;
equality of Secrets coincides with equality of the wrapped strings and
deref exposes the wrapped string unchanged. -/
theorem claim_c9_secret_redaction (v : Secret) :
    Secret.debugFmt v = "***" ∧ Secret.displayFmt v = "***" ∧
    (¬ v.val.data <:+: "***".data →
      ¬ v.val.data <:+: (Secret.debugFmt v).data ∧
      ¬ v.val.data <:+: (Secret.displayFmt v).data) ∧
    Secret.deref v = v.val ∧
    (∀ w : Secret, v = w ↔ v.val = w.val) := by
  refine ⟨rfl, rfl, fun h => ⟨h, h⟩, rfl, fun w => ⟨fun h => congrArg Secret.val h, ?_⟩⟩
  intro h
  cases v
  cases w
  cases h
  rfl

/-- Claim C9 witness at a concrete Secret whose text is longer than the
marker. -/
theorem claim_c9_witness :
    ¬ ("password" : String).data <:+: (Secret.debugFmt ⟨"password"⟩).data ∧
    ¬ ("password" : String).data <:+: (Secret.displayFmt ⟨"password"⟩).data :=
  (claim_c9_secret_redaction ⟨"password"⟩).2.2.1
    (fun h => absurd h.length_le (by decide))

/-- Claim C10: a client built via from_environment always carries a false
revoke_self_on_drop flag, whatever the arguments and environment; Client::new
delegates to from_environment and then overwrites the flag with its own
argument. -/
theorem claim_c10_revoke_flag (env : String → Option String)
    (certBuild : String → Except Error HttpClient)
    (builder : Except Error HttpClient) (a t ca : Option String) (flag : Bool)
    (c c' : Client) :
    (Client.from_environment env certBuild builder a t ca = .ok c →
      c.revoke_self_on_drop = false) ∧
    (Client.new env certBuild builder a t ca flag = .ok c' →
      c'.revoke_self_on_drop = flag) := by
  have hfrom : ∀ cl : Client,
      Client.from_environment env certBuild builder a t ca = .ok cl →
      cl.revoke_self_on_drop = false := by
    intro cl h
    unfold Client.from_environment at h
    repeat' split at h
    all_goals
      first
      | exact Except.noConfusion h
      | (unfold Client.internal_new at h
         repeat' split at h
         all_goals
           first
           | exact Except.noConfusion h
           | (injection h with h2
              rw [← h2]))
  refine ⟨hfrom c, ?_⟩
  intro h
  unfold Client.new at h
  split at h
  · exact Except.noConfusion h
  · injection h with h2
    rw [← h2]

/-- Claim C10 witness at a concrete environment, with and without the
revoke flag requested through Client::new. -/
theorem claim_c10_witness :
    (Client.from_environment
      (fun n => if n = "VAULT_ADDR" then some "http://v"
        else if n = "VAULT_TOKEN" then some "tok" else none)
      (fun _ => .ok .mk) (.ok .mk) none none none =
      .ok ⟨⟨"tok"⟩, "http://v", .mk, false⟩ →
      (⟨⟨"tok"⟩, "http://v", .mk, false⟩ : Client).revoke_self_on_drop = false) ∧
    (Client.new
      (fun n => if n = "VAULT_ADDR" then some "http://v"
        else if n = "VAULT_TOKEN" then some "tok" else none)
      (fun _ => .ok .mk) (.ok .mk) none none none true =
      .ok ⟨⟨"tok"⟩, "http://v", .mk, true⟩ →
      (⟨⟨"tok"⟩, "http://v", .mk, true⟩ : Client).revoke_self_on_drop = true) ∧
    (⟨⟨"tok"⟩, "http://v", .mk, false⟩ : Client).revoke_self_on_drop = false ∧
    (⟨⟨"tok"⟩, "http://v", .mk, true⟩ : Client).revoke_self_on_drop = true := by
  have h := claim_c10_revoke_flag
    (fun n => if n = "VAULT_ADDR" then some "http://v"
      else if n = "VAULT_TOKEN" then some "tok" else none)
    (fun _ => .ok .mk) (.ok .mk) none none none true
    ⟨⟨"tok"⟩, "http://v", .mk, false⟩ ⟨⟨"tok"⟩, "http://v", .mk, true⟩
  exact ⟨h.1, h.2, h.1 rfl, h.2 rfl⟩

end VaultRs
